import Mathlib

/-
Verification of the signed NetSuite API client and its TTL cache.

The definitions below are shallow embeddings of the Python sources:
  - CacheManager        from app/utils/cache.py (backed by cachetools.TTLCache,
    modelled as a time-indexed association store: an entry stores the value
    together with its absolute expiry instant, and a lookup at time `now`
    yields the value only while `now < expires`, matching TTLCache's
    `expires > timer()` liveness check)
  - NetSuiteClient      from app/services/netsuite.py
Stateful Python methods become explicit state-passing functions; the wall
clock becomes an explicit `now : Nat` argument; raised exceptions become
`Except String` results carrying the exception message.
-/

/-- State of `CacheManager`: fixed default TTL of the underlying TTLCache,
the store (key, (value, absolute expiry time)), and the hit/miss counters.
A stored value is `Option b` because Python values include `None`. -/
structure CacheManager (b : Type) where
  ttl : Nat
  store : List (String × Option b × Nat)
  hits : Nat
  misses : Nat

/-- Association-list lookup in the underlying store. -/
def storeLookup {b : Type} (st : List (String × Option b × Nat)) (k : String) :
    Option (Option b × Nat) :=
  match st with
  | [] => none
  | (k', e) :: rest => if k' = k then some e else storeLookup rest k

/-- Insert or overwrite a key in the underlying store. -/
def storeInsert {b : Type} (st : List (String × Option b × Nat)) (k : String)
    (e : Option b × Nat) : List (String × Option b × Nat) :=
  match st with
  | [] => [(k, e)]
  | (k', e') :: rest =>
      if k' = k then (k, e) :: rest else (k', e') :: storeInsert rest k e

/-- Remove a key from the underlying store. -/
def storeRemove {b : Type} (st : List (String × Option b × Nat)) (k : String) :
    List (String × Option b × Nat) :=
  st.filter (fun p => p.1 ≠ k)

/-- CacheManager.get: `value = self.cache.get(key)` returns the stored value
while the entry is alive and `None` otherwise; a non-None value is a hit,
anything else a miss. Returns the Python return value and the new state. -/
def CacheManager.get {b : Type} (m : CacheManager b) (k : String) (now : Nat) :
    Option b × CacheManager b :=
  let value : Option b :=
    match storeLookup m.store k with
    | some (v, expires) => if now < expires then v else none
    | none => none
  match value with
  | some v => (some v, { m with hits := m.hits + 1 })
  | none => (none, { m with misses := m.misses + 1 })

/-- CacheManager.set: the `ttl` argument is accepted but ignored (the Python
body is `if ttl: pass`); the entry always receives the cache's default TTL. -/
def CacheManager.set {b : Type} (m : CacheManager b) (k : String) (v : Option b)
    (_ttlArg : Option Nat) (now : Nat) : Bool × CacheManager b :=
  (true, { m with store := storeInsert m.store k (v, now + m.ttl) })

/-- CacheManager.delete: `if key in self.cache` (membership sees only live
entries, per TTLCache) then `del self.cache[key]`. -/
def CacheManager.delete {b : Type} (m : CacheManager b) (k : String) (now : Nat) :
    Bool × CacheManager b :=
  match storeLookup m.store k with
  | some (_, expires) =>
      if now < expires then
        (true, { m with store := storeRemove m.store k })
      else (false, m)
  | none => (false, m)

/-- CacheManager.clear: `self.cache.clear()`. -/
def CacheManager.clear {b : Type} (m : CacheManager b) : Bool × CacheManager b :=
  (true, { m with store := [] })

/-- One cache operation, tagged with the wall-clock instant it runs at. -/
inductive CacheOp (b : Type) where
  | get (k : String) (now : Nat)
  | set (k : String) (v : Option b) (ttlArg : Option Nat) (now : Nat)
  | del (k : String) (now : Nat)
  | clear

/-- Run a sequence of cache operations from a starting state. -/
def runOps {b : Type} : List (CacheOp b) → CacheManager b → CacheManager b
  | [], m => m
  | CacheOp.get k now :: rest, m => runOps rest (CacheManager.get m k now).2
  | CacheOp.set k v t now :: rest, m => runOps rest (CacheManager.set m k v t now).2
  | CacheOp.del k now :: rest, m => runOps rest (CacheManager.delete m k now).2
  | CacheOp.clear :: rest, m => runOps rest (CacheManager.clear m).2

/-- Number of get operations in a sequence. -/
def countGets {b : Type} : List (CacheOp b) → Nat
  | [] => 0
  | CacheOp.get _ _ :: rest => countGets rest + 1
  | _ :: rest => countGets rest

/-- The initial cache state used as a concrete test fixture: the reference
defaults maxsize=1000 (irrelevant here) and ttl=300 seconds. -/
def cm0 : CacheManager Nat :=
  { ttl := 300, store := [], hits := 0, misses := 0 }

theorem storeLookup_insert {b : Type} (st : List (String × Option b × Nat))
    (k : String) (e : Option b × Nat) :
    storeLookup (storeInsert st k e) k = some e := by
  induction st with
  | nil => simp [storeInsert, storeLookup]
  | cons p rest ih =>
      obtain ⟨k', e'⟩ := p
      by_cases h : k' = k <;> simp [storeInsert, storeLookup, h, ih]

theorem get_counters {b : Type} (m : CacheManager b) (k : String) (now : Nat) :
    ((CacheManager.get m k now).2.hits = m.hits + 1 ∧
       (CacheManager.get m k now).2.misses = m.misses) ∨
      ((CacheManager.get m k now).2.hits = m.hits ∧
       (CacheManager.get m k now).2.misses = m.misses + 1) := by
  unfold CacheManager.get
  cases hv : (match storeLookup m.store k with
    | some (v, expires) => if now < expires then v else none
    | none => (none : Option b)) with
  | some v => exact Or.inl ⟨rfl, rfl⟩
  | none => exact Or.inr ⟨rfl, rfl⟩

theorem set_counters {b : Type} (m : CacheManager b) (k : String) (v : Option b)
    (t : Option Nat) (now : Nat) :
    (CacheManager.set m k v t now).2.hits = m.hits ∧
      (CacheManager.set m k v t now).2.misses = m.misses :=
  ⟨rfl, rfl⟩

theorem delete_counters {b : Type} (m : CacheManager b) (k : String) (now : Nat) :
    (CacheManager.delete m k now).2.hits = m.hits ∧
      (CacheManager.delete m k now).2.misses = m.misses := by
  unfold CacheManager.delete
  cases storeLookup m.store k with
  | none => exact ⟨rfl, rfl⟩
  | some e =>
      obtain ⟨v, expires⟩ := e
      by_cases h : now < expires <;> simp [h]

theorem runOps_counters {b : Type} (ops : List (CacheOp b)) (m : CacheManager b) :
    (runOps ops m).hits + (runOps ops m).misses
        = m.hits + m.misses + countGets ops ∧
      m.hits ≤ (runOps ops m).hits ∧ m.misses ≤ (runOps ops m).misses := by
  induction ops generalizing m with
  | nil => simp [runOps, countGets]
  | cons op rest ih =>
      cases op with
      | get k now =>
          have hg := get_counters m k now
          have := ih (CacheManager.get m k now).2
          simp only [runOps, countGets]
          rcases hg with ⟨h1, h2⟩ | ⟨h1, h2⟩ <;> omega
      | set k v t now =>
          have hs := set_counters m k v t now
          have := ih (CacheManager.set m k v t now).2
          simp only [runOps, countGets]
          omega
      | del k now =>
          have hd := delete_counters m k now
          have := ih (CacheManager.delete m k now).2
          simp only [runOps, countGets]
          omega
      | clear =>
          have := ih (CacheManager.clear m).2
          simp only [runOps, countGets, CacheManager.clear] at *
          omega

/-- C8: every CacheManager.get increments exactly one of the hit or miss
counters by one (an expired or absent key counts as a miss), so over any
sequence of operations hits plus misses grows by exactly the number of get
calls, and both counters are monotonically non-decreasing. -/
theorem cache_stats_accounting {b : Type} :
    (∀ (m : CacheManager b) (k : String) (now : Nat),
        ((CacheManager.get m k now).2.hits = m.hits + 1 ∧
           (CacheManager.get m k now).2.misses = m.misses) ∨
          ((CacheManager.get m k now).2.hits = m.hits ∧
           (CacheManager.get m k now).2.misses = m.misses + 1)) ∧
      (∀ (ops : List (CacheOp b)) (m : CacheManager b),
        (runOps ops m).hits + (runOps ops m).misses
            = m.hits + m.misses + countGets ops ∧
          m.hits ≤ (runOps ops m).hits ∧ m.misses ≤ (runOps ops m).misses) :=
  ⟨get_counters, runOps_counters⟩

/-- C7 counterexample: with the reference default TTL of 300 seconds, after
`set("k", 42, ttl=1)` at time 0 a get at time 1 (the claimed 1-second TTL has
elapsed) still returns the value as a hit, because the per-call ttl argument
is ignored; the claim's predicted absent-plus-miss outcome does not occur. -/
theorem set_custom_ttl_ignored :
    (CacheManager.get ((CacheManager.set cm0 "k" (some 42) (some 1) 0).2) "k" 1).1
        = some 42 ∧
      (CacheManager.get ((CacheManager.set cm0 "k" (some 42) (some 1) 0).2) "k" 1).2.misses
        = 0 := by
  constructor <;> rfl

/-- C7 amended: `set(k, v, ttl=1)` stores v under the cache's default TTL (the
per-call ttl argument is ignored); an immediate `get(k)` returns v as a hit,
and once the cache's DEFAULT TTL has elapsed `get(k)` returns absent and
increments the miss counter. -/
theorem cache_ttl_amended {b : Type} (m : CacheManager b) (k : String) (v : b)
    (ttlArg : Option Nat) (t : Nat) (h : 0 < m.ttl) :
    (CacheManager.set m k (some v) ttlArg t).1 = true ∧
      (CacheManager.get (CacheManager.set m k (some v) ttlArg t).2 k t).1 = some v ∧
      (CacheManager.get (CacheManager.set m k (some v) ttlArg t).2 k t).2.hits
        = m.hits + 1 ∧
      (CacheManager.get (CacheManager.set m k (some v) ttlArg t).2 k (t + m.ttl)).1
        = none ∧
      (CacheManager.get (CacheManager.set m k (some v) ttlArg t).2 k (t + m.ttl)).2.misses
        = m.misses + 1 := by
  have hst : (CacheManager.set m k (some v) ttlArg t).2.store
      = storeInsert m.store k (some v, t + m.ttl) := rfl
  have halive : t < t + m.ttl := by omega
  have hdead : ¬ (t + m.ttl < t + m.ttl) := by omega
  refine ⟨rfl, ?_, ?_, ?_, ?_⟩ <;>
    simp [CacheManager.get, hst, storeLookup_insert, halive, hdead,
      CacheManager.set]

theorem cache_ttl_amended_witness :
    0 < cm0.ttl ∧
      (CacheManager.get (CacheManager.set cm0 "k" (some 7) (some 1) 0).2 "k"
          (0 + cm0.ttl)).1 = none :=
  ⟨by decide, (cache_ttl_amended cm0 "k" 7 (some 1) 0 (by decide)).2.2.2.1⟩

/-- C10: after a successful `set(k, None)` the key is present in the
underlying store, yet `get(k)` returns absent and increments the miss counter
(and not the hit counter): a stored None is indistinguishable from an absent
or expired key at the get interface, because get tests the retrieved value
against None rather than key presence. -/
theorem stored_none_reads_as_miss {b : Type} (m : CacheManager b) (k : String)
    (ttlArg : Option Nat) (t now : Nat) :
    (CacheManager.set m k none ttlArg t).1 = true ∧
      storeLookup (CacheManager.set m k none ttlArg t).2.store k
        = some (none, t + m.ttl) ∧
      (CacheManager.get (CacheManager.set m k none ttlArg t).2 k now).1 = none ∧
      (CacheManager.get (CacheManager.set m k none ttlArg t).2 k now).2.hits
        = m.hits ∧
      (CacheManager.get (CacheManager.set m k none ttlArg t).2 k now).2.misses
        = m.misses + 1 := by
  have hst : (CacheManager.set m k none ttlArg t).2.store
      = storeInsert m.store k (none, t + m.ttl) := rfl
  refine ⟨rfl, ?_, ?_, ?_, ?_⟩ <;>
    simp [CacheManager.get, hst, storeLookup_insert, CacheManager.set]

/-- NetSuiteClient state after construction, from NetSuiteClient.__init__. -/
structure NetSuiteClient where
  realm : String
  consumer_key : String
  consumer_secret : String
  token_key : String
  token_secret : String
  base_url : String
  suiteql_url : String

/-- NetSuiteClient.__init__: `if not all([realm, consumer_key, consumer_secret,
token_key, token_secret]): raise ValueError(...)` — a Python string is falsy
exactly when it is empty, so construction succeeds iff all five credential
strings are non-empty; no network request is involved. -/
def NetSuiteClient.create (realm consumer_key consumer_secret token_key
    token_secret : String) : Except String NetSuiteClient :=
  if realm ≠ "" ∧ consumer_key ≠ "" ∧ consumer_secret ≠ "" ∧
      token_key ≠ "" ∧ token_secret ≠ "" then
    Except.ok
      { realm := realm
        consumer_key := consumer_key
        consumer_secret := consumer_secret
        token_key := token_key
        token_secret := token_secret
        base_url := "https://" ++ realm
          ++ ".suitetalk.api.netsuite.com/services/rest/record/v1"
        suiteql_url := "https://" ++ realm
          ++ ".suitetalk.api.netsuite.com/services/rest/query/v1/suiteql" }
  else Except.error "Missing required NetSuite credentials"

/-- C2: constructing the client succeeds iff all five credential strings are
non-empty; with any of them empty it fails immediately at construction with
the missing-credentials error, before any request is made. -/
theorem client_create_fail_fast (realm ck cs tk ts : String) :
    ((NetSuiteClient.create realm ck cs tk ts).isOk ↔
        (realm ≠ "" ∧ ck ≠ "" ∧ cs ≠ "" ∧ tk ≠ "" ∧ ts ≠ "")) ∧
      (¬ (realm ≠ "" ∧ ck ≠ "" ∧ cs ≠ "" ∧ tk ≠ "" ∧ ts ≠ "") →
        NetSuiteClient.create realm ck cs tk ts
          = Except.error "Missing required NetSuite credentials") := by
  constructor
  · unfold NetSuiteClient.create
    by_cases h : realm ≠ "" ∧ ck ≠ "" ∧ cs ≠ "" ∧ tk ≠ "" ∧ ts ≠ "" <;>
      simp [h, Except.isOk, Except.toBool]
  · intro h
    unfold NetSuiteClient.create
    simp [h]

theorem client_create_fail_fast_witness :
    ((NetSuiteClient.create "r1" "ck" "" "tk" "ts").isOk ↔
        ("r1" ≠ "" ∧ "ck" ≠ "" ∧ "" ≠ "" ∧ "tk" ≠ "" ∧ "ts" ≠ "")) ∧
      NetSuiteClient.create "r1" "ck" "" "tk" "ts"
        = Except.error "Missing required NetSuite credentials" :=
  ⟨(client_create_fail_fast "r1" "ck" "" "tk" "ts").1,
    (client_create_fail_fast "r1" "ck" "" "tk" "ts").2 (by simp)⟩

/-- Does the character list start with the given pattern. -/
def startsWithChars : List Char → List Char → Bool
  | [], _ => true
  | _ :: _, [] => false
  | p :: ps, c :: cs => p == c && startsWithChars ps cs

/-- Substring test on character lists (Python's `pat in s`). -/
def charsContain (pat : List Char) : List Char → Bool
  | [] => pat.isEmpty
  | c :: cs => startsWithChars pat (c :: cs) || charsContain pat cs

/-- Python's `pat in s` on strings. -/
def containsSubstr (s pat : String) : Bool :=
  charsContain pat.data s.data

/-- Python's str.lower restricted to ASCII (the case used by the client's
error messages). -/
def lowerChar (c : Char) : Char :=
  if 'A' ≤ c ∧ c ≤ 'Z' then Char.ofNat (c.toNat + 32) else c

/-- Lower-case a string character-wise. -/
def pyLower (s : String) : String := String.mk (s.data.map lowerChar)

/-- Outcome of one transport attempt: httpx raising a TimeoutException,
httpx raising some other transport exception with a message, or an HTTP
response with status code, reason phrase, body text and parsed JSON body. -/
inductive Outcome (a : Type) where
  | timeout
  | transportError (msg : String)
  | response (status : Nat) (reason : String) (body : String) (parsed : a)

/-- Observable behaviour of one `_make_request` call: the returned value or
raised exception message, the backoff sleeps performed (in order), and the
number of attempts made. `Except.ok none` is the Python fall-through return
of None when the attempt loop is empty. -/
structure MRResult (a : Type) where
  result : Except String (Option a)
  sleeps : List Nat
  attempts : Nat

/-- The message of the exception raised for an HTTP status >= 400:
`NetSuite API error ((status)): (reason). (body)` per the f-string. -/
def apiErrorMsg (status : Nat) (reason body : String) : String :=
  "NetSuite API error (" ++ toString status ++ "): " ++ reason ++ ". " ++ body

/-- The attempt loop of NetSuiteClient._make_request, one constructor case per
transport outcome. The raise for an HTTP status >= 400 happens inside the try
block, so it is itself caught by the generic `except Exception` clause, whose
policy is: re-raise on the final attempt, retry after `2 ** attempt` seconds
when the lower-cased message contains "connection", re-raise otherwise.
`fuel` is the number of loop iterations left (`retries - attempt + 1`). -/
def runLoop {a : Type} (t : Nat → Outcome a) (retries : Nat) :
    Nat → Nat → List Nat → Nat → MRResult a
  | 0, _, sleeps, made => ⟨Except.ok none, sleeps.reverse, made⟩
  | fuel + 1, attempt, sleeps, made =>
    match t attempt with
    | Outcome.timeout =>
        if attempt < retries then
          runLoop t retries fuel (attempt + 1) (2 ^ attempt :: sleeps) (made + 1)
        else
          ⟨Except.error "Request timeout after multiple retries",
            sleeps.reverse, made + 1⟩
    | Outcome.transportError msg =>
        if attempt = retries then ⟨Except.error msg, sleeps.reverse, made + 1⟩
        else if containsSubstr (pyLower msg) "connection" then
          runLoop t retries fuel (attempt + 1) (2 ^ attempt :: sleeps) (made + 1)
        else ⟨Except.error msg, sleeps.reverse, made + 1⟩
    | Outcome.response status reason body parsed =>
        if status = 429 ∧ attempt < retries then
          runLoop t retries fuel (attempt + 1) (2 ^ attempt :: sleeps) (made + 1)
        else if 400 ≤ status then
          if attempt = retries then
            ⟨Except.error (apiErrorMsg status reason body), sleeps.reverse, made + 1⟩
          else if containsSubstr (pyLower (apiErrorMsg status reason body))
              "connection" then
            runLoop t retries fuel (attempt + 1) (2 ^ attempt :: sleeps) (made + 1)
          else
            ⟨Except.error (apiErrorMsg status reason body), sleeps.reverse, made + 1⟩
        else ⟨Except.ok (some parsed), sleeps.reverse, made + 1⟩

/-- NetSuiteClient._make_request: `for attempt in range(1, retries + 1)`. -/
def make_request {a : Type} (t : Nat → Outcome a) (retries : Nat) : MRResult a :=
  runLoop t retries retries 1 [] 0

/-- C4: with an attempt budget of 3 and a transport answering HTTP 429 on the
first two attempts, execute sleeps 2 then 4 seconds and retries; a success
status on attempt 3 yields the parsed body after exactly 3 attempts, while a
429 on the final attempt propagates the HTTP-error failure instead of
retrying. -/
theorem rate_limit_retry_backoff {a : Type} (t : Nat → Outcome a)
    (r1 b1 : String) (p1 : a) (r2 b2 : String) (p2 : a)
    (h1 : t 1 = Outcome.response 429 r1 b1 p1)
    (h2 : t 2 = Outcome.response 429 r2 b2 p2) :
    (∀ (s : Nat) (r b : String) (p : a), t 3 = Outcome.response s r b p →
        s < 400 → make_request t 3 = ⟨Except.ok (some p), [2, 4], 3⟩) ∧
      (∀ (r b : String) (p : a), t 3 = Outcome.response 429 r b p →
        make_request t 3 = ⟨Except.error (apiErrorMsg 429 r b), [2, 4], 3⟩) := by
  constructor
  · intro s r b p h3 hs
    have hs1 : ¬ (s = 429 ∧ 3 < 3) := by omega
    have hs2 : ¬ (400 ≤ s) := by omega
    simp [make_request, runLoop, h1, h2, h3, hs1, hs2]
  · intro r b p h3
    simp [make_request, runLoop, h1, h2, h3]

/-- Concrete transport used as the C4 witness: 429 twice then HTTP 200. -/
def twice429Transport : Nat → Outcome Nat := fun attempt =>
  if attempt = 1 then Outcome.response 429 "Too Many Requests" "slow down" 0
  else if attempt = 2 then Outcome.response 429 "Too Many Requests" "slow down" 0
  else Outcome.response 200 "OK" "" 99

theorem rate_limit_retry_backoff_witness :
    make_request twice429Transport 3 = ⟨Except.ok (some 99), [2, 4], 3⟩ :=
  (rate_limit_retry_backoff twice429Transport "Too Many Requests" "slow down" 0
      "Too Many Requests" "slow down" 0 rfl rfl).1 200 "OK" "" 99 rfl (by omega)

/-- Transport whose every attempt times out. -/
def allTimeout : Nat → Outcome Nat := fun _ => Outcome.timeout

/-- C5 counterexample: when every attempt times out with a budget of 3,
execute makes 3 attempts with backoff waits of 2 then 4 seconds and fails,
but the raised message is the fixed string "Request timeout after multiple
retries", which does not name the number of attempts made (it does not even
contain the digit 3). -/
theorem timeout_error_lacks_attempt_count :
    make_request allTimeout 3
        = ⟨Except.error "Request timeout after multiple retries", [2, 4], 3⟩ ∧
      containsSubstr "Request timeout after multiple retries" "3" = false := by
  exact ⟨rfl, rfl⟩

/-- C5 amended: against a transport whose every attempt times out, execute
with an attempt budget of 3 performs exactly 3 attempts with backoff waits of
2 then 4 seconds between them, then fails with the fixed exhausted-retries
timeout message (which does not include the attempt count). -/
theorem timeout_retries_exhausted {a : Type} (t : Nat → Outcome a)
    (h : ∀ i, t i = Outcome.timeout) :
    make_request t 3
      = ⟨Except.error "Request timeout after multiple retries", [2, 4], 3⟩ := by
  simp [make_request, runLoop, h 1, h 2, h 3]

theorem timeout_retries_exhausted_witness :
    make_request allTimeout 3
      = ⟨Except.error "Request timeout after multiple retries", [2, 4], 3⟩ :=
  timeout_retries_exhausted allTimeout (fun _ => rfl)

/-- Failing input for C3: attempt 1 receives HTTP 400 (not 429) with a body
mentioning "connection"; later attempts succeed. -/
def connBodyTransport : Nat → Outcome Nat := fun attempt =>
  if attempt = 1 then
    Outcome.response 400 "Bad Request" "connection reset by peer" 0
  else Outcome.response 200 "OK" "" 7

/-- C3 divergence: the raise for HTTP >= 400 happens inside the try block, so
the generic `except Exception` clause catches it and string-matches the
message for "connection"; here attempt 1 receives HTTP 400 yet execute does
NOT fail on that attempt — it sleeps 2 seconds, retries, and returns the
attempt-2 success, contradicting the no-retry rule for non-429 HTTP errors. -/
theorem http_error_with_connection_body_is_retried :
    make_request connBodyTransport 3 = ⟨Except.ok (some 7), [2], 2⟩ := by
  exact rfl

/-- JSON-like values: the parsed response bodies handled by the client. -/
inductive JVal where
  | null
  | str (s : String)
  | num (n : Int)
  | boolean (v : Bool)
  | arr (xs : List JVal)
  | obj (fields : List (String × JVal))

/-- NetSuiteClient.get_sublist: one signed GET through _make_request; the
result is returned as-is, and any raised exception is caught and replaced by
the dictionary with an empty items list. -/
def get_sublist (t : Nat → Outcome JVal) : JVal :=
  match (make_request t 3).result with
  | Except.ok (some v) => v
  | Except.ok none => JVal.null
  | Except.error _ => JVal.obj [("items", JVal.arr [])]

/-- C9: get_sublist issues its single signed GET through the request executor
and never propagates a failure: whenever that request fails it returns the
empty items object, and whenever it succeeds it returns the parsed result. -/
theorem get_sublist_swallows_failures (t : Nat → Outcome JVal) :
    (∀ e : String, (make_request t 3).result = Except.error e →
        get_sublist t = JVal.obj [("items", JVal.arr [])]) ∧
      (∀ v : JVal, (make_request t 3).result = Except.ok (some v) →
        get_sublist t = v) := by
  constructor <;> intro x h <;> simp [get_sublist, h]

/-- Transport whose single relevant attempt is an HTTP 404 failure. -/
def notFoundTransport : Nat → Outcome JVal := fun _ =>
  Outcome.response 404 "Not Found" "no such record" JVal.null

theorem get_sublist_swallows_failures_witness :
    (make_request notFoundTransport 3).result
        = Except.error (apiErrorMsg 404 "Not Found" "no such record") ∧
      get_sublist notFoundTransport = JVal.obj [("items", JVal.arr [])] :=
  ⟨rfl, (get_sublist_swallows_failures notFoundTransport).1
    (apiErrorMsg 404 "Not Found" "no such record") rfl⟩

/-- The per-item body of the detail-expansion loop in
NetSuiteClient.get_records: `record_id = item.get("id")`; a truthy id (a
non-empty string) triggers `get_record`, whose raised exception is caught and
the summary item appended instead; a missing or falsy id keeps the summary.
`getId` reads the "id" field of a record, `fetchRec` is `get_record`. -/
def expandOne {g : Type} (getId : g → Option String)
    (fetchRec : String → Except String g) (item : g) : g :=
  match getId item with
  | some rid =>
      if rid ≠ "" then
        match fetchRec rid with
        | Except.ok full => full
        | Except.error _ => item
      else item
  | none => item

/-- The detail-expansion loop of NetSuiteClient.get_records, appending one
output record per summary item in order. -/
def expandItems {g : Type} (getId : g → Option String)
    (fetchRec : String → Except String g) : List g → List g
  | [] => []
  | item :: rest => expandOne getId fetchRec item :: expandItems getId fetchRec rest

/-- The parsed upstream list response consumed by get_records. -/
structure ListData (g : Type) where
  items : List g
  count : Option Nat
  hasMore : Option Bool
  totalResults : Option Nat

/-- The result envelope built by NetSuiteClient.get_records. -/
structure FetchResult (g : Type) where
  entity : String
  count : Nat
  hasMore : Bool
  items : List g
  offset : Nat
  limit : Nat
  totalResults : Nat

/-- NetSuiteClient.get_records, from the parsed list response on: items are
expanded only when expand_details is set and the list is non-empty; the
envelope defaults count to 0, hasMore to False, offset to 0, limit to 1000,
and totalResults to count. -/
def get_records {g : Type} (getId : g → Option String)
    (fetchRec : String → Except String g) (entity : String)
    (offsetParam limitParam : Option Nat) (expand_details : Bool)
    (data : ListData g) : FetchResult g :=
  { entity := entity
    count := data.count.getD 0
    hasMore := data.hasMore.getD false
    items :=
      if expand_details && !data.items.isEmpty then
        expandItems getId fetchRec data.items
      else data.items
    offset := offsetParam.getD 0
    limit := limitParam.getD 1000
    totalResults := data.totalResults.getD (data.count.getD 0) }

theorem expandItems_eq_map {g : Type} (getId : g → Option String)
    (fetchRec : String → Except String g) (l : List g) :
    expandItems getId fetchRec l = l.map (expandOne getId fetchRec) := by
  induction l with
  | nil => rfl
  | cons x xs ih => simp [expandItems, ih]

theorem get_records_items_expand {g : Type} (getId : g → Option String)
    (fetchRec : String → Except String g) (entity : String)
    (off lim : Option Nat) (data : ListData g) :
    (get_records getId fetchRec entity off lim true data).items
      = data.items.map (expandOne getId fetchRec) := by
  unfold get_records
  by_cases h : data.items = []
  · simp [h, expandItems]
  · simp [h, expandItems_eq_map, List.isEmpty_iff]

/-- C6: with detail expansion enabled, get_records returns exactly as many
items as the summary list, in the original order; at each position the
detailed record replaces the summary when that item's detail fetch succeeds,
and the original summary record is kept when its detail fetch fails — a
per-item failure never disturbs the other positions. -/
theorem expand_details_partial_failure {g : Type} (getId : g → Option String)
    (fetchRec : String → Except String g) (entity : String)
    (off lim : Option Nat) (data : ListData g) :
    (get_records getId fetchRec entity off lim true data).items.length
        = data.items.length ∧
      (∀ (i : Nat) (item : g), data.items.get? i = some item →
        (∀ (rid : String) (full : g), getId item = some rid → rid ≠ "" →
            fetchRec rid = Except.ok full →
            (get_records getId fetchRec entity off lim true data).items.get? i
              = some full) ∧
          (∀ (rid : String) (e : String), getId item = some rid →
            fetchRec rid = Except.error e →
            (get_records getId fetchRec entity off lim true data).items.get? i
              = some item) ∧
          (getId item = none →
            (get_records getId fetchRec entity off lim true data).items.get? i
              = some item)) := by
  rw [get_records_items_expand]
  constructor
  · simp
  · intro i item hi
    rw [List.get?_eq_getElem?] at hi
    have hmap : (data.items.map (expandOne getId fetchRec)).get? i
        = some (expandOne getId fetchRec item) := by
      rw [List.get?_eq_getElem?, List.getElem?_map, hi]
      rfl
    refine ⟨?_, ?_, ?_⟩
    · intro rid full hid hne hok
      rw [hmap]
      simp [expandOne, hid, hne, hok]
    · intro rid e hid herr
      rw [hmap]
      by_cases hne : rid = "" <;> simp [expandOne, hid, hne, herr]
    · intro hid
      rw [hmap]
      simp [expandOne, hid]

/-- Concrete fixture for detail expansion: records are numbers, the record id
is the number's decimal string, and the detail fetch fails exactly for record
2 while mapping record n to 100 + n. -/
def wGetId : Nat → Option String := fun n => some (toString n)

/-- Detail fetcher for the fixture. -/
def wFetch : String → Except String Nat := fun rid =>
  if rid = "2" then Except.error "boom"
  else if rid = "1" then Except.ok 101
  else Except.ok 103

/-- List response of three summary items for the fixture. -/
def wData : ListData Nat :=
  { items := [1, 2, 3], count := some 3, hasMore := some false,
    totalResults := none }

theorem expand_details_partial_failure_witness :
    (get_records wGetId wFetch "customer" none none true wData).items.length = 3 ∧
      (get_records wGetId wFetch "customer" none none true wData).items.get? 0
        = some 101 ∧
      (get_records wGetId wFetch "customer" none none true wData).items.get? 1
        = some 2 :=
  ⟨(expand_details_partial_failure wGetId wFetch "customer" none none wData).1,
    (((expand_details_partial_failure wGetId wFetch "customer" none none
        wData).2 0 1 rfl).1 "1" 101 rfl (by decide) rfl),
    (((expand_details_partial_failure wGetId wFetch "customer" none none
        wData).2 1 2 rfl).2.1 "2" "boom" rfl rfl)⟩

/-- UTF-8 encoding of one code point (Python strings are encoded to UTF-8
bytes before percent-encoding and before HMAC). -/
def utf8Bytes (c : Char) : List Nat :=
  let n := c.toNat
  if n < 128 then [n]
  else if n < 2048 then [192 + n / 64, 128 + n % 64]
  else if n < 65536 then [224 + n / 4096, 128 + n / 64 % 64, 128 + n % 64]
  else [240 + n / 262144, 128 + n / 4096 % 64, 128 + n / 64 % 64, 128 + n % 64]

/-- The UTF-8 bytes of a string (Python's `s.encode("utf-8")`). -/
def strBytes (s : String) : List Nat := (s.data.map utf8Bytes).flatten

/-- Upper-case hexadecimal digit, as emitted by urllib's quote. -/
def hexDigit (n : Nat) : Char :=
  if n < 10 then Char.ofNat (48 + n) else Char.ofNat (55 + n)

/-- The bytes urllib.parse.quote leaves unescaped when safe is the empty
string: its always-safe set, ASCII letters, digits, and underscore, period,
hyphen, tilde. -/
def isSafeByte (b : Nat) : Bool :=
  (65 ≤ b && b ≤ 90) || (97 ≤ b && b ≤ 122) || (48 ≤ b && b ≤ 57) ||
    b == 95 || b == 46 || b == 45 || b == 126

/-- One byte under urllib.parse.quote: kept when safe, otherwise escaped as a
percent sign and two upper-case hex digits. -/
def quoteByte (b : Nat) : List Char :=
  if isSafeByte b then [Char.ofNat b]
  else ['%', hexDigit (b / 16), hexDigit (b % 16)]

/-- urllib.parse.quote(s, safe="") as used throughout netsuite.py. -/
def pyQuote (s : String) : String :=
  String.mk ((strBytes s).map quoteByte).flatten

/-- Python's str.upper restricted to ASCII (methods are "GET"/"POST"). -/
def upperChar (c : Char) : Char :=
  if 'a' ≤ c ∧ c ≤ 'z' then Char.ofNat (c.toNat - 32) else c

/-- Upper-case a string character-wise (Python `method.upper()`). -/
def pyUpper (s : String) : String := String.mk (s.data.map upperChar)

/-- Python's `<` on strings: lexicographic comparison of code points. -/
def ltCharList : List Char → List Char → Bool
  | [], [] => false
  | [], _ :: _ => true
  | _ :: _, [] => false
  | a :: as, b :: bs =>
      if a < b then true else if b < a then false else ltCharList as bs

/-- Python string comparison. -/
def pyLtString (a b : String) : Bool := ltCharList a.data b.data

/-- Python's comparison of (key, value) tuples, as used by
`sorted(params.items())`: by key, then by value on equal keys. -/
def ltPairPy (p q : String × String) : Bool :=
  pyLtString p.1 q.1 || (p.1 == q.1 && pyLtString p.2 q.2)

/-- Insert into a sorted list according to a boolean comparison. -/
def insertBy {a : Type} (lt : a → a → Bool) (x : a) : List a → List a
  | [] => [x]
  | y :: ys => if lt x y then x :: y :: ys else y :: insertBy lt x ys

/-- Insertion sort by a boolean comparison (models Python's sorted; for the
pairwise-distinct keys of a parameter mapping the sorted order is unique, so
the choice of algorithm is immaterial). -/
def sortBy {a : Type} (lt : a → a → Bool) : List a → List a
  | [] => []
  | x :: xs => insertBy lt x (sortBy lt xs)

/-- The sorted, percent-encoded parameter string of
NetSuiteClient._generate_oauth_signature:
`"&".join(quote(k) + "=" + quote(v) for k, v in sorted(params.items()))`. -/
def paramString (params : List (String × String)) : String :=
  String.intercalate "&"
    ((sortBy ltPairPy params).map (fun p => pyQuote p.1 ++ "=" ++ pyQuote p.2))

/-- The signature base string of _generate_oauth_signature:
`"&".join([method.upper(), quote(url), quote(param_string)])`. -/
def base_string (method url : String) (params : List (String × String)) : String :=
  String.intercalate "&" [pyUpper method, pyQuote url, pyQuote (paramString params)]

/-- The signing key of _generate_oauth_signature:
`quote(consumer_secret) + "&" + quote(token_secret)`. -/
def signing_key (consumer_secret token_secret : String) : String :=
  pyQuote consumer_secret ++ "&" ++ pyQuote token_secret

/-- Standard base64 alphabet. -/
def b64Char (n : Nat) : Char :=
  "ABCDEFGHIJKLMNOPQRSTUVWXYZabcdefghijklmnopqrstuvwxyz0123456789+/".data.getD n 'A'

/-- Standard base64 of a byte list with "=" padding (Python
`base64.b64encode`). -/
def base64Encode : List Nat → String
  | [] => ""
  | [x] => String.mk [b64Char (x / 4), b64Char (x % 4 * 16), '=', '=']
  | [x, y] =>
      String.mk [b64Char (x / 4), b64Char (x % 4 * 16 + y / 16),
        b64Char (y % 16 * 4), '=']
  | x :: y :: z :: rest =>
      String.mk [b64Char (x / 4), b64Char (x % 4 * 16 + y / 16),
        b64Char (y % 16 * 4 + z / 64), b64Char (z % 64)] ++ base64Encode rest

/-- NetSuiteClient._generate_oauth_signature, parameterized by the
HMAC-SHA256 primitive (key bytes, message bytes to digest bytes), which both
the code (hmac.new(..., hashlib.sha256)) and the spec treat as the same
opaque function:
`base64.b64encode(hmac.new(signing_key.encode, base_string.encode,
sha256).digest())`. -/
def generate_oauth_signature (hmacSha256 : List Nat → List Nat → List Nat)
    (method url consumer_secret token_secret : String)
    (params : List (String × String)) : String :=
  base64Encode
    (hmacSha256 (strBytes (signing_key consumer_secret token_secret))
      (strBytes (base_string method url params)))

/-- Modelled from the spec: the RFC 3986 unreserved bytes — ALPHA, DIGIT,
hyphen, period, underscore, tilde; everything else is escaped (space,
byte 32, is not unreserved, so it encodes as the escape %20, never '+'). -/
def isUnreservedByte (b : Nat) : Bool :=
  (48 ≤ b && b ≤ 57) || (65 ≤ b && b ≤ 90) || (97 ≤ b && b ≤ 122) ||
    b == 45 || b == 46 || b == 95 || b == 126

/-- Modelled from the spec: RFC 3986 percent-encoding of one byte. -/
def specQuoteByte (b : Nat) : List Char :=
  if isUnreservedByte b then [Char.ofNat b]
  else ['%', hexDigit (b / 16), hexDigit (b % 16)]

/-- Modelled from the spec: percent-encode with all characters except
unreserved escaped. -/
def specPercentEncode (s : String) : String :=
  String.mk ((strBytes s).map specQuoteByte).flatten

/-- Modelled from the spec: "sorted lexicographically by key". -/
def ltKeySpec (p q : String × String) : Bool := pyLtString p.1 q.1

/-- Modelled from the spec: sort merged params lexicographically by key, then
percent-encode each key and value, joined as the sorted parameter string. -/
def specParamString (params : List (String × String)) : String :=
  String.intercalate "&"
    ((sortBy ltKeySpec params).map
      (fun p => specPercentEncode p.1 ++ "=" ++ specPercentEncode p.2))

/-- Modelled from the spec: the signature base string
METHOD and percentEncode(URL) and percentEncode(sortedParamString), joined
with ampersands. -/
def specBaseString (method url : String) (params : List (String × String)) :
    String :=
  pyUpper method ++ "&" ++ specPercentEncode url ++ "&"
    ++ specPercentEncode (specParamString params)

/-- Modelled from the spec: the signing key
percentEncode(consumerSecret) and percentEncode(tokenSecret), joined with an
ampersand. -/
def specSigningKey (consumer_secret token_secret : String) : String :=
  specPercentEncode consumer_secret ++ "&" ++ specPercentEncode token_secret

theorem isUnreservedByte_eq_isSafeByte (b : Nat) :
    isUnreservedByte b = isSafeByte b := by
  simp only [isUnreservedByte, isSafeByte, Bool.or_comm, Bool.or_left_comm,
    Bool.or_assoc]

theorem specPercentEncode_eq_pyQuote (s : String) :
    specPercentEncode s = pyQuote s := by
  unfold specPercentEncode pyQuote
  have h : specQuoteByte = quoteByte := by
    funext b
    simp [specQuoteByte, quoteByte, isUnreservedByte_eq_isSafeByte]
  rw [h]

theorem insertBy_congr {a : Type} (lt1 lt2 : a → a → Bool) (x : a)
    (l : List a) (h : ∀ y ∈ l, lt1 x y = lt2 x y) :
    insertBy lt1 x l = insertBy lt2 x l := by
  induction l with
  | nil => rfl
  | cons y ys ih =>
      have hy := h y (List.mem_cons_self y ys)
      by_cases hxy : lt1 x y = true
      · simp [insertBy, hxy, hy ▸ hxy]
      · have hxy2 : lt2 x y = false := by
          rw [← hy]
          exact Bool.eq_false_iff.mpr hxy
        simp [insertBy, Bool.eq_false_iff.mpr hxy, hxy2]
        exact ih (fun z hz => h z (List.mem_cons_of_mem y hz))

theorem mem_insertBy {a : Type} (lt : a → a → Bool) (x : a) (l : List a)
    (z : a) : z ∈ insertBy lt x l ↔ z = x ∨ z ∈ l := by
  induction l with
  | nil => simp [insertBy]
  | cons y ys ih =>
      by_cases hxy : lt x y = true
      · simp [insertBy, hxy, ih, List.mem_cons]
      · simp [insertBy, hxy, ih, List.mem_cons]
        tauto

theorem mem_sortBy {a : Type} (lt : a → a → Bool) (l : List a) (z : a) :
    z ∈ sortBy lt l ↔ z ∈ l := by
  induction l with
  | nil => simp [sortBy]
  | cons y ys ih => simp [sortBy, mem_insertBy, ih, List.mem_cons]

theorem sortBy_congr {a : Type} (lt1 lt2 : a → a → Bool) (l : List a)
    (h : ∀ x ∈ l, ∀ y ∈ l, lt1 x y = lt2 x y) :
    sortBy lt1 l = sortBy lt2 l := by
  induction l with
  | nil => rfl
  | cons x xs ih =>
      have hrec : sortBy lt1 xs = sortBy lt2 xs :=
        ih (fun p hp q hq =>
          h p (List.mem_cons_of_mem x hp) q (List.mem_cons_of_mem x hq))
      simp only [sortBy, hrec]
      exact insertBy_congr lt1 lt2 x (sortBy lt2 xs)
        (fun y hy => h x (List.mem_cons_self x xs) y
          (List.mem_cons_of_mem x ((mem_sortBy lt2 xs y).mp hy)))

theorem ltCharList_irrefl (l : List Char) : ltCharList l l = false := by
  induction l with
  | nil => rfl
  | cons c cs ih => simp [ltCharList, ih]

theorem ltPairPy_eq_ltKeySpec_of_nodup (params : List (String × String))
    (h : (params.map Prod.fst).Nodup) :
    ∀ p ∈ params, ∀ q ∈ params, ltPairPy p q = ltKeySpec p q := by
  intro p hp q hq
  by_cases hpq : p = q
  · subst hpq
    simp [ltPairPy, ltKeySpec, pyLtString, ltCharList_irrefl]
  · have hkey : p.1 ≠ q.1 := fun hk =>
      hpq (List.inj_on_of_nodup_map h hp hq hk)
    simp [ltPairPy, ltKeySpec, hkey]

theorem paramString_eq_spec (params : List (String × String))
    (hkeys : (params.map Prod.fst).Nodup) :
    paramString params = specParamString params := by
  unfold paramString specParamString
  rw [sortBy_congr ltPairPy ltKeySpec params
    (ltPairPy_eq_ltKeySpec_of_nodup params hkeys)]
  simp [specPercentEncode_eq_pyQuote]

theorem base_string_eq_spec (method url : String)
    (params : List (String × String))
    (hkeys : (params.map Prod.fst).Nodup) :
    base_string method url params = specBaseString method url params := by
  unfold base_string specBaseString
  rw [specPercentEncode_eq_pyQuote, specPercentEncode_eq_pyQuote,
    ← paramString_eq_spec params hkeys]
  simp [String.intercalate, String.intercalate.go, String.append_assoc]

theorem signing_key_eq_spec (consumer_secret token_secret : String) :
    signing_key consumer_secret token_secret
      = specSigningKey consumer_secret token_secret := by
  simp [signing_key, specSigningKey, specPercentEncode_eq_pyQuote]

/-- C1: for every method, URL, parameter mapping (pairwise-distinct keys) and
credential pair, the signature produced by _generate_oauth_signature equals
base64 of HMAC-SHA256 of the spec's signing key over the spec's base string:
merged params sorted lexicographically by key, keys and values
percent-encoded per RFC 3986 (only unreserved bytes unescaped, space as the
%20 escape), base string METHOD and percentEncode(URL) and
percentEncode(sortedParamString) joined with ampersands, signing key
percentEncode(consumerSecret) and percentEncode(tokenSecret) joined with an
ampersand. -/
theorem oauth_signature_matches_spec
    (hmacSha256 : List Nat → List Nat → List Nat)
    (method url consumer_secret token_secret : String)
    (params : List (String × String))
    (hkeys : (params.map Prod.fst).Nodup) :
    generate_oauth_signature hmacSha256 method url consumer_secret
        token_secret params
      = base64Encode
          (hmacSha256 (strBytes (specSigningKey consumer_secret token_secret))
            (strBytes (specBaseString method url params))) := by
  unfold generate_oauth_signature
  rw [base_string_eq_spec method url params hkeys,
    signing_key_eq_spec consumer_secret token_secret]

/-- A concrete stand-in for the HMAC-SHA256 primitive in the C1 witness. -/
def hmacStub : List Nat → List Nat → List Nat := fun key msg => key ++ msg

theorem oauth_signature_matches_spec_witness :
    (([("b", "2 x"), ("a", "1&=")].map Prod.fst).Nodup) ∧
      generate_oauth_signature hmacStub "get" "https://example.com/a b" "cs+"
          "ts~" [("b", "2 x"), ("a", "1&=")]
        = base64Encode
            (hmacStub (strBytes (specSigningKey "cs+" "ts~"))
              (strBytes (specBaseString "get" "https://example.com/a b"
                [("b", "2 x"), ("a", "1&=")]))) :=
  ⟨by decide,
    oauth_signature_matches_spec hmacStub "get" "https://example.com/a b"
      "cs+" "ts~" [("b", "2 x"), ("a", "1&=")] (by decide)⟩
